import Mathlib

/-!
Verification of the reminder-bot delivery engine against its specification.

The development shallowly embeds the JavaScript sources:
  * `src/utils/queue.js`    — the `AsyncQueue` bounded-concurrency job queue;
  * `src/utils/retry.js`    — `retryWithBackoff`, exponential backoff with jitter;
  * `src/utils/date.js`     — `parseDateSafe` / `calculateDaysOverdue` helpers;
  * `src/service/reminder.service.js` — per-row classification and the run pipeline;
  * `src/service/sheet.service.js`    — `fetchTasksBatched` pagination and
    `batchUpdateLastReminded` chunked write-back;
  * `src/scheduler.js`      — the `runOnce` overlap guard.

Modelling conventions: calendar dates are integers (day numbers at start-of-day
in the run's fixed timezone, so Luxon's whole-day diff of two start-of-day
instants is exact integer subtraction); millisecond delays are rationals
(`Math.random()` jitter draws are abstracted as explicit rational arguments);
the opaque external collaborators (date-format parsing, SMTP send, Sheets API
calls) are abstract function parameters, as the spec designates them
out-of-scope interfaces.  JavaScript's single-threaded event loop serialises
queue bookkeeping, so the queue is modelled as a state machine whose atomic
events are the synchronous critical sections of the source.
-/

namespace ReminderBot

/-! ### `AsyncQueue` (src/utils/queue.js)

State of one `AsyncQueue` instance.  `pending` abstracts `_pending.length`
(job identity is irrelevant to the counting claims), `active` is `_active`,
`hasWorker` records whether `process()` has registered `_worker`,
`drainWaiters` abstracts `_drainResolvers.length`. -/

structure AsyncQueue where
  concurrency : ℕ
  pending : ℕ
  active : ℕ
  hasWorker : Bool
  paused : Bool
  drainWaiters : ℕ
  totalEnqueued : ℕ
  totalCompleted : ℕ
  totalFailed : ℕ
deriving Repr, DecidableEq

/-- Constructor state: `new AsyncQueue({ concurrency })` (queue.js lines 20–32). -/
def AsyncQueue.init (concurrency : ℕ) : AsyncQueue :=
  { concurrency := concurrency
    pending := 0
    active := 0
    hasWorker := false
    paused := false
    drainWaiters := 0
    totalEnqueued := 0
    totalCompleted := 0
    totalFailed := 0 }

/-- `_tick()` (queue.js lines 107–115): unless there is no worker or the queue
is paused, the `while (_active < concurrency && _pending.length > 0)` loop
moves `min (concurrency - active) pending` jobs from pending to active. -/
def AsyncQueue.tick (s : AsyncQueue) : AsyncQueue :=
  if ¬ s.hasWorker ∨ s.paused then s
  else
    let k := min (s.concurrency - s.active) s.pending
    { s with pending := s.pending - k, active := s.active + k }

/-- `push(job)` (queue.js lines 52–56): count the job, append it, `_tick()`. -/
def AsyncQueue.push (s : AsyncQueue) : AsyncQueue :=
  AsyncQueue.tick { s with totalEnqueued := s.totalEnqueued + 1, pending := s.pending + 1 }

/-- `process(fn)` (queue.js lines 38–45): register the worker, then `_tick()`. -/
def AsyncQueue.process (s : AsyncQueue) : AsyncQueue :=
  AsyncQueue.tick { s with hasWorker := true }

/-- `pause()` (queue.js line 83). -/
def AsyncQueue.pause (s : AsyncQueue) : AsyncQueue :=
  { s with paused := true }

/-- `resume()` (queue.js lines 88–91). -/
def AsyncQueue.resume (s : AsyncQueue) : AsyncQueue :=
  AsyncQueue.tick { s with paused := false }

/-- `_checkDrain()` (queue.js lines 133–139): when no job is pending and none
is active, every registered drain resolver fires.  Returns the new state and
the number of drain promises resolved at this instant. -/
def AsyncQueue.checkDrain (s : AsyncQueue) : AsyncQueue × ℕ :=
  if s.pending = 0 ∧ s.active = 0 then
    ({ s with drainWaiters := 0 }, s.drainWaiters)
  else (s, 0)

/-- The `finally` block of `_run(job)` (queue.js lines 117–131): one running
job settles (`ok` tells whether the worker resolved or threw), then
`_active--; _tick(); _checkDrain();` runs as a single synchronous critical
section on the event loop.  If no job is active the event cannot occur.
Returns the new state together with the number of drain promises resolved. -/
def AsyncQueue.finish (ok : Bool) (s : AsyncQueue) : AsyncQueue × ℕ :=
  if s.active = 0 then (s, 0)
  else
    AsyncQueue.checkDrain <| AsyncQueue.tick
      { s with
        active := s.active - 1
        totalCompleted := if ok then s.totalCompleted + 1 else s.totalCompleted
        totalFailed := if ok then s.totalFailed else s.totalFailed + 1 }

/-- `drain()` (queue.js lines 73–80): resolve immediately when the queue is
idle, otherwise register a resolver.  The boolean reports whether the returned
promise is already resolved at the call instant. -/
def AsyncQueue.drain (s : AsyncQueue) : AsyncQueue × Bool :=
  if s.pending = 0 ∧ s.active = 0 then (s, true)
  else ({ s with drainWaiters := s.drainWaiters + 1 }, false)

/-- The atomic events observable on an `AsyncQueue`. -/
inductive QueueEvent where
  | push
  | process
  | pause
  | resume
  | finish (ok : Bool)
  | drain
deriving Repr, DecidableEq

/-- Apply one event to the queue state. -/
def AsyncQueue.applyEvent (s : AsyncQueue) : QueueEvent → AsyncQueue
  | .push => s.push
  | .process => s.process
  | .pause => s.pause
  | .resume => s.resume
  | .finish ok => (AsyncQueue.finish ok s).1
  | .drain => s.drain.1

/-- The state reached from `new AsyncQueue({concurrency})` after a sequence of
events. -/
def AsyncQueue.run (concurrency : ℕ) (events : List QueueEvent) : AsyncQueue :=
  events.foldl AsyncQueue.applyEvent (AsyncQueue.init concurrency)

/-! ### `retryWithBackoff` (src/utils/retry.js)

The retried operation is abstracted as `attempts : ℕ → Except ε α`, giving the
outcome of the `attempt`-th call of `fn` (the spec requires the policy to be a
pure function of the attempt index plus one random draw, with an injectable
random source).  `jitter attempt` is the value of `Math.random() * baseDelayMs`
drawn on that attempt.  Delays are rationals (milliseconds). -/

structure RetryOpts where
  maxRetries : ℕ
  baseDelayMs : ℚ
  maxDelayMs : ℚ
deriving Repr, DecidableEq

/-- The delay computed at retry.js lines 150–153:
`min(baseDelayMs * 2^attempt + jitter, maxDelayMs)`. -/
def backoffDelay (o : RetryOpts) (attempt : ℕ) (jitter : ℚ) : ℚ :=
  min (o.baseDelayMs * 2 ^ attempt + jitter) o.maxDelayMs

/-- Observable trace of one `retryWithBackoff` invocation: the final result,
the list of delays actually slept (in order), and how many times `fn` was
called. -/
structure RetryTrace (ε α : Type) where
  result : Except ε α
  sleeps : List ℚ
  calls : ℕ
deriving Repr

/-- The `for (let attempt = 0; attempt <= maxRetries; attempt++)` loop of
retry.js lines 137–162, entered at index `attempt` with `fuel` further
attempts allowed after this one (`fuel = maxRetries - attempt` at entry).
On success the value returns; on failure with no attempts left the error is
re-raised with no sleep; otherwise the computed backoff delay is slept and the
loop continues. -/
def retryGo (o : RetryOpts) (attempts : ℕ → Except ε α) (jitter : ℕ → ℚ)
    (attempt : ℕ) : ℕ → RetryTrace ε α
  | 0 =>
    match attempts attempt with
    | .ok a => ⟨.ok a, [], 1⟩
    | .error e => ⟨.error e, [], 1⟩
  | fuel + 1 =>
    match attempts attempt with
    | .ok a => ⟨.ok a, [], 1⟩
    | .error _ =>
      let t := retryGo o attempts jitter (attempt + 1) fuel
      ⟨t.result, backoffDelay o attempt (jitter attempt) :: t.sleeps, t.calls + 1⟩

/-- `retryWithBackoff(fn, opts)` (retry.js lines 127–165). -/
def retryWithBackoff (o : RetryOpts) (attempts : ℕ → Except ε α) (jitter : ℕ → ℚ) :
    RetryTrace ε α :=
  retryGo o attempts jitter 0 o.maxRetries

/-! ### Record classification (src/service/reminder.service.js, src/utils/date.js)

Calendar dates are integer day numbers: every date the service compares is a
Luxon `DateTime` pinned to start-of-day in the run's fixed timezone, so date
equality, ordering and whole-day differences are exactly those of the day
numbers.  The flexible format-parsing chain of `parseDateSafe` (ISO, the
format list, the JS `Date` fallback — date.js lines 44–73) is the opaque
out-of-scope collaborator `po`; the blank-input rejection of date.js lines
41–43 is kept concrete. -/

/-- JavaScript `String.prototype.trim` on the character sequence (the sheet
fields only ever carry ASCII whitespace). -/
def jsTrim (s : String) : String :=
  ⟨((s.data.dropWhile Char.isWhitespace).reverse.dropWhile Char.isWhitespace).reverse⟩

/-- JavaScript `String.prototype.toLowerCase` on the character sequence; the
`/^completed$/i` status test of reminder.service.js line 82 is exactly
lower-cased equality with `"completed"`. -/
def jsToLower (s : String) : String :=
  ⟨s.data.map Char.toLower⟩

/-- `parseDateSafe(dateStr, timezone)` (date.js lines 40–74): blank input is
unparseable; otherwise the trimmed text goes through the opaque format
chain `po`. -/
def parseDateSafe (po : String → Option ℤ) (dateStr : String) : Option ℤ :=
  if jsTrim dateStr = "" then none else po (jsTrim dateStr)

/-- `calculateDaysOverdue(dueDate, today)` (date.js lines 28–30):
`Math.floor(today.diff(dueDate, "days").days)`; on start-of-day instants the
whole-day difference is exact, so the floor is plain subtraction of day
numbers. -/
def calculateDaysOverdue (dueDate today : ℤ) : ℤ :=
  today - dueDate

/-- One sheet row as read by `processOneSheet` (reminder.service.js lines
69–73): the five configured columns, still untrimmed. -/
structure Row where
  taskName : String
  ownerEmail : String
  dueDateStr : String
  status : String
  lastReminded : String
deriving Repr, DecidableEq

/-- The classification a row receives in the `processOneSheet` scan loop; the
eligible variant carries the parsed due date used to build the payload. -/
inductive Classification where
  | badData
  | completedTask
  | futureTask
  | dedupSkip
  | eligible (dueDate : ℤ)
deriving Repr, DecidableEq

/-- Whether a classification is the eligible one. -/
def Classification.isEligible : Classification → Bool
  | .eligible _ => true
  | _ => false

/-- The per-row decision sequence of `processOneSheet` (reminder.service.js
lines 66–108): blank identifying fields, the case-insensitive `completed`
sentinel, due-date parsing, the strictly-future check, then — when dedup is
enabled and a last-reminded marker is present — the same-day duplicate
check. -/
def classifyRow (po : String → Option ℤ) (dedupEnabled : Bool) (today : ℤ) (r : Row) :
    Classification :=
  let taskName := jsTrim r.taskName
  let ownerEmail := jsTrim r.ownerEmail
  let dueDateStr := jsTrim r.dueDateStr
  let status := jsTrim r.status
  let lastReminded := jsTrim r.lastReminded
  if taskName = "" ∨ ownerEmail = "" then .badData
  else if jsToLower status = "completed" then .completedTask
  else
    match parseDateSafe po dueDateStr with
    | none => .badData
    | some dueDate =>
      if today < dueDate then .futureTask
      else if dedupEnabled ∧ lastReminded ≠ "" then
        match parseDateSafe po lastReminded with
        | some lastDate => if lastDate = today then .dedupSkip else .eligible dueDate
        | none => .eligible dueDate
      else .eligible dueDate

/-- The delivery payload fields the claims are about (`buildReminderEmail`,
reminder.service.js lines 10–42): recipient, the optional manager cc, and the
`meta.daysOverdue` attribution. -/
structure EmailPayload where
  «to» : String
  cc : Option String
  daysOverdue : ℤ
deriving Repr, DecidableEq

/-- `buildReminderEmail` (reminder.service.js lines 10–42): a due-today
payload (`daysOverdue === 0`) has no cc; an overdue payload carries
`cc: config.email.managerEmail`. -/
def buildReminderEmail (managerEmail ownerEmail : String) (daysOverdue : ℤ) : EmailPayload :=
  if daysOverdue = 0 then { «to» := ownerEmail, cc := none, daysOverdue := 0 }
  else { «to» := ownerEmail, cc := some managerEmail, daysOverdue := daysOverdue }

/-- The per-sheet skip/eligible counters of `processOneSheet`
(reminder.service.js lines 51–58). -/
structure SheetStats where
  tasksScanned : ℕ
  tasksEligible : ℕ
  tasksSkippedCompleted : ℕ
  tasksSkippedFuture : ℕ
  tasksSkippedDedup : ℕ
  tasksSkippedBadData : ℕ
deriving Repr, DecidableEq

/-- Result of one `processOneSheet` call: the counters, the payloads pushed
into the email queue, and the accumulated "Last Reminded" updates
`{rowIndex, value: runTimestamp}`. -/
structure SheetResult where
  stats : SheetStats
  enqueued : List EmailPayload
  updates : List (ℕ × String)
deriving Repr, DecidableEq

/-- The row loop of `processOneSheet` (reminder.service.js lines 66–118) over
the scanned rows `(row, rowIndex)`: every row is counted as scanned and
dispatched on its classification; an eligible row enqueues exactly one
payload and records exactly one update keyed to its row index, valued with
the run timestamp. -/
def processRows (po : String → Option ℤ) (dedupEnabled : Bool) (managerEmail : String)
    (today : ℤ) (runTimestamp : String) : List (Row × ℕ) → SheetResult
  | [] => ⟨⟨0, 0, 0, 0, 0, 0⟩, [], []⟩
  | (r, rowIndex) :: rest =>
    let t := processRows po dedupEnabled managerEmail today runTimestamp rest
    match classifyRow po dedupEnabled today r with
    | .badData =>
      let st := { t.stats with
        tasksScanned := t.stats.tasksScanned + 1
        tasksSkippedBadData := t.stats.tasksSkippedBadData + 1 }
      ⟨st, t.enqueued, t.updates⟩
    | .completedTask =>
      let st := { t.stats with
        tasksScanned := t.stats.tasksScanned + 1
        tasksSkippedCompleted := t.stats.tasksSkippedCompleted + 1 }
      ⟨st, t.enqueued, t.updates⟩
    | .futureTask =>
      let st := { t.stats with
        tasksScanned := t.stats.tasksScanned + 1
        tasksSkippedFuture := t.stats.tasksSkippedFuture + 1 }
      ⟨st, t.enqueued, t.updates⟩
    | .dedupSkip =>
      let st := { t.stats with
        tasksScanned := t.stats.tasksScanned + 1
        tasksSkippedDedup := t.stats.tasksSkippedDedup + 1 }
      ⟨st, t.enqueued, t.updates⟩
    | .eligible dueDate =>
      let st := { t.stats with
        tasksScanned := t.stats.tasksScanned + 1
        tasksEligible := t.stats.tasksEligible + 1 }
      ⟨st,
        buildReminderEmail managerEmail (jsTrim r.ownerEmail)
          (calculateDaysOverdue dueDate today) :: t.enqueued,
        (rowIndex, runTimestamp) :: t.updates⟩

/-- The payload an individual row contributes, if any: eligible rows yield
their reminder payload, all others yield nothing. -/
def rowPayload (po : String → Option ℤ) (dedupEnabled : Bool) (managerEmail : String)
    (today : ℤ) (r : Row) : Option EmailPayload :=
  match classifyRow po dedupEnabled today r with
  | .eligible dueDate =>
    some (buildReminderEmail managerEmail (jsTrim r.ownerEmail) (calculateDaysOverdue dueDate today))
  | _ => none

/-- The one-run outcome of a sheet, after the queue drains: delivered and
permanently-failed counts from the per-job outcomes, and the "Last Reminded"
write-back units (`processReminders`, reminder.service.js lines 195–212).
`outcome j` tells whether the `j`-th enqueued payload was eventually delivered
(after its worker-internal retries). -/
structure RunOutcome where
  emailsSent : ℕ
  emailsFailed : ℕ
  writeBack : List (ℕ × String)
deriving Repr, DecidableEq

/-- Scan, classify and enqueue the rows of one sheet, drain the queue, and
carry the sheet's accumulated updates to the write-back phase: the write-back
list is assembled during classification, before any delivery outcome is
known. -/
def runSheet (po : String → Option ℤ) (dedupEnabled : Bool) (managerEmail : String)
    (today : ℤ) (runTimestamp : String) (outcome : ℕ → Bool) (rows : List (Row × ℕ)) :
    RunOutcome :=
  let res := processRows po dedupEnabled managerEmail today runTimestamp rows
  let sent := ((List.range res.enqueued.length).filter fun j => outcome j).length
  ⟨sent, res.enqueued.length - sent, res.updates⟩

/-! ### `fetchTasksBatched` pagination (src/service/sheet.service.js lines 47–117)

The loop state is `startRow` (absolute 1-based sheet position; the scan starts
at 2 because row 1 is the header) and runs while `startRow ≤ totalRows`, where
`totalRows` is the sheet's grid row count.  Each iteration requests the range
`startRow .. min (startRow + batchSize - 1) totalRows`.  The recursion is
written on explicit fuel so that concrete runs evaluate; `totalRows` units of
fuel are never exhausted, because the loop advances `startRow` by at least one
per iteration for every positive `batchSize` (the config default is 5000 and a
falsy env value falls back to it, so `batchSize ≥ 1` always holds). -/
def fetchPagesGo (batchSize totalRows : ℕ) : ℕ → ℕ → List (ℕ × ℕ)
  | _, 0 => []
  | startRow, fuel + 1 =>
    if startRow ≤ totalRows then
      let endRow := min (startRow + batchSize - 1) totalRows
      (startRow, endRow) :: fetchPagesGo batchSize totalRows (endRow + 1) fuel
    else []

/-- The sequence of `(startRow, endRow)` ranges `fetchTasksBatched` requests
for a sheet of `totalRows` grid rows. -/
def fetchPageRanges (batchSize totalRows : ℕ) : List (ℕ × ℕ) :=
  fetchPagesGo batchSize totalRows 2 totalRows

/-- The number of rows in each requested page, for a fully populated sheet
(the source returns every row of the requested range). -/
def fetchPageSizes (batchSize totalRows : ℕ) : List ℕ :=
  (fetchPageRanges batchSize totalRows).map (fun p => p.2 - p.1 + 1)

/-! ### `batchUpdateLastReminded` write-back (src/service/sheet.service.js lines 129–158)

`for (let i = 0; i < updates.length; i += writeBatch)` slices the update list
into chunks of `writeBatch`.  Each chunk's `batchUpdate` call runs under
`retryWithBackoff`; `chunkOk i` abstracts whether chunk `i`'s call ultimately
succeeds within its retries.  A chunk whose retries exhaust throws out of the
loop — there is no per-chunk catch — so the remaining chunks are not
attempted; the exception is caught per sheet by `processReminders` lines
204–212. -/

/-- The chunking `updates.slice(i, i + writeBatch)`; fuel = list length
suffices for every positive chunk size (config default 500, falsy fallback). -/
def chunksGo (wb : ℕ) : ℕ → List α → List (List α)
  | _, [] => []
  | 0, _ => []
  | fuel + 1, l => l.take wb :: chunksGo wb fuel (l.drop wb)

/-- The list of chunks the write-back loop issues, in order. -/
def chunksOf (wb : ℕ) (l : List α) : List (List α) :=
  chunksGo wb l.length l

/-- The chunk loop from chunk index `idx`: a successful chunk is written and
the loop continues; a failed chunk (retries exhausted) throws, abandoning it
and every later chunk.  Returns the chunks actually written and whether the
call returned normally. -/
def batchUpdateGo (chunkOk : ℕ → Bool) (idx : ℕ) :
    List (List (ℕ × String)) → List (List (ℕ × String)) × Bool
  | [] => ([], true)
  | c :: rest =>
    if chunkOk idx then
      let t := batchUpdateGo chunkOk (idx + 1) rest
      (c :: t.1, t.2)
    else ([], false)

/-- `batchUpdateLastReminded({spreadsheetId, sheetName, updates})`
(sheet.service.js lines 129–158) under the chunk-outcome oracle `chunkOk`. -/
def batchUpdateLastReminded (chunkOk : ℕ → Bool) (writeBatch : ℕ)
    (updates : List (ℕ × String)) : List (List (ℕ × String)) × Bool :=
  batchUpdateGo chunkOk 0 (chunksOf writeBatch updates)

/-- The write-back phase of `processReminders` (reminder.service.js lines
204–212): each sheet's `batchUpdateLastReminded` call is wrapped in its own
try/catch, so one sheet's failure does not stop the others.  `sheetOk i`
is the chunk-outcome oracle of the `i`-th sheet; the result lists, per sheet,
the chunks actually written. -/
def writeBackPhase (sheetOk : ℕ → ℕ → Bool) (writeBatch : ℕ)
    (sheetUpdates : List (List (ℕ × String))) : List (List (List (ℕ × String))) :=
  sheetUpdates.enum.map (fun p => (batchUpdateLastReminded (sheetOk p.1) writeBatch p.2).1)

/-! ### `runOnce` overlap guard (src/scheduler.js lines 14–40) -/

/-- What `processReminders` resolves to: the weekend sentinel
`{skipped: true, reason: "weekend", ...}` or a full run summary
(reminder.service.js lines 136–139 and 214–232). -/
inductive RunResult where
  | skippedRun (reason : String)
  | summary (emailsSent emailsFailed : ℕ)
deriving Repr, DecidableEq

/-- `runOnce()` (scheduler.js lines 14–40): when `_running` is set the call
logs and returns `null` at once; otherwise it runs `processReminders` —
`body` is that invocation's outcome — returning its result, or `null` when it
throws (the catch path).  The second component counts how many times
`processReminders` (and hence the sheet scanner) is invoked on behalf of this
call. -/
def runOnce (running : Bool) (body : Except String RunResult) : Option RunResult × ℕ :=
  if running then (none, 0)
  else
    match body with
    | .ok r => (some r, 1)
    | .error _ => (none, 1)

lemma AsyncQueue.tick_concurrency (s : AsyncQueue) : s.tick.concurrency = s.concurrency := by
  unfold AsyncQueue.tick
  split <;> rfl

lemma AsyncQueue.tick_active_le (s : AsyncQueue) (h : s.active ≤ s.concurrency) :
    s.tick.active ≤ s.concurrency := by
  unfold AsyncQueue.tick
  split
  · exact h
  · simp only
    omega

lemma AsyncQueue.checkDrain_fst_concurrency (s : AsyncQueue) :
    s.checkDrain.1.concurrency = s.concurrency := by
  unfold AsyncQueue.checkDrain
  split <;> rfl

lemma AsyncQueue.checkDrain_fst_active (s : AsyncQueue) :
    s.checkDrain.1.active = s.active := by
  unfold AsyncQueue.checkDrain
  split <;> rfl

lemma AsyncQueue.checkDrain_fst_pending (s : AsyncQueue) :
    s.checkDrain.1.pending = s.pending := by
  unfold AsyncQueue.checkDrain
  split <;> rfl

lemma AsyncQueue.checkDrain_snd_pos (s : AsyncQueue) (h : 0 < s.checkDrain.2) :
    s.pending = 0 ∧ s.active = 0 := by
  unfold AsyncQueue.checkDrain at h
  split at h
  · assumption
  · simp at h

lemma AsyncQueue.applyEvent_concurrency (s : AsyncQueue) (e : QueueEvent) :
    (s.applyEvent e).concurrency = s.concurrency := by
  cases e with
  | push => simp [AsyncQueue.applyEvent, AsyncQueue.push, AsyncQueue.tick_concurrency]
  | process => simp [AsyncQueue.applyEvent, AsyncQueue.process, AsyncQueue.tick_concurrency]
  | pause => rfl
  | resume => simp [AsyncQueue.applyEvent, AsyncQueue.resume, AsyncQueue.tick_concurrency]
  | finish ok =>
    simp only [AsyncQueue.applyEvent, AsyncQueue.finish]
    split
    · rfl
    · rw [AsyncQueue.checkDrain_fst_concurrency, AsyncQueue.tick_concurrency]
  | drain =>
    simp only [AsyncQueue.applyEvent, AsyncQueue.drain]
    split <;> rfl

lemma AsyncQueue.applyEvent_active_le (s : AsyncQueue) (e : QueueEvent)
    (h : s.active ≤ s.concurrency) : (s.applyEvent e).active ≤ (s.applyEvent e).concurrency := by
  rw [AsyncQueue.applyEvent_concurrency]
  cases e with
  | push =>
    simp only [AsyncQueue.applyEvent, AsyncQueue.push]
    exact AsyncQueue.tick_active_le _ h
  | process =>
    simp only [AsyncQueue.applyEvent, AsyncQueue.process]
    exact AsyncQueue.tick_active_le _ h
  | pause => exact h
  | resume =>
    simp only [AsyncQueue.applyEvent, AsyncQueue.resume]
    exact AsyncQueue.tick_active_le _ h
  | drain =>
    simp only [AsyncQueue.applyEvent, AsyncQueue.drain]
    split <;> simpa using h
  | finish ok =>
    simp only [AsyncQueue.applyEvent, AsyncQueue.finish]
    split
    · exact h
    · rw [AsyncQueue.checkDrain_fst_active]
      have hle := AsyncQueue.tick_active_le
        { s with
          active := s.active - 1
          totalCompleted := if ok then s.totalCompleted + 1 else s.totalCompleted
          totalFailed := if ok then s.totalFailed else s.totalFailed + 1 }
        (by simpa using Nat.le_trans (Nat.sub_le _ _) h)
      simpa using hle

/-- C1.  For every concurrency limit `C` and every event sequence (covering
every number of submitted jobs and every interleaving of submissions,
completions and drains), the number of concurrently running workers never
exceeds `C`: `activeCount ≤ concurrencyLimit` holds in every reachable state
of the queue. -/
theorem queue_active_le_concurrency (C : ℕ) (events : List QueueEvent) :
    (AsyncQueue.run C events).active ≤ C := by
  suffices h : ∀ (s : AsyncQueue), s.active ≤ s.concurrency → s.concurrency = C →
      (events.foldl AsyncQueue.applyEvent s).active ≤ C by
    exact h (AsyncQueue.init C) (by simp [AsyncQueue.init]) rfl
  induction events with
  | nil => intro s hs hc; simpa [hc] using hs
  | cons e es ih =>
    intro s hs hc
    simp only [List.foldl_cons]
    exact ih (s.applyEvent e) (AsyncQueue.applyEvent_active_le s e hs)
      ((AsyncQueue.applyEvent_concurrency s e).trans hc)

/-- C2.  `drain()` resolves exactly when `pendingCount = 0 ∧ activeCount = 0`
at the moment of evaluation: (1) a `drain()` call resolves immediately iff the
queue is idle at the call instant; (2) when a job completion resolves waiting
drain promises, the post-completion state (after the same-critical-section
`_tick`) has no pending and no active job, so drain never resolves while a
pending job has yet to be started; (3) with zero jobs enqueued (the freshly
constructed queue) `drain()` resolves immediately. -/
theorem drain_resolves_iff_idle :
    (∀ s : AsyncQueue, (s.drain.2 = true ↔ s.pending = 0 ∧ s.active = 0)) ∧
    (∀ (ok : Bool) (s : AsyncQueue), 0 < (AsyncQueue.finish ok s).2 →
      (AsyncQueue.finish ok s).1.pending = 0 ∧ (AsyncQueue.finish ok s).1.active = 0) ∧
    (∀ C : ℕ, (AsyncQueue.init C).drain.2 = true) := by
  refine ⟨fun s => ?_, fun ok s h => ?_, fun C => ?_⟩
  · unfold AsyncQueue.drain
    split
    · simpa using ‹s.pending = 0 ∧ s.active = 0›
    · simpa using ‹¬ (s.pending = 0 ∧ s.active = 0)›
  · unfold AsyncQueue.finish at h ⊢
    split at h
    · simp at h
    · next hact =>
      simp only [if_neg hact]
      rw [AsyncQueue.checkDrain_fst_pending, AsyncQueue.checkDrain_fst_active]
      exact AsyncQueue.checkDrain_snd_pos _ h
  · simp [AsyncQueue.drain, AsyncQueue.init]

lemma retryGo_allFail (o : RetryOpts) (attempts : ℕ → Except ε α) (errs : ℕ → ε)
    (jitter : ℕ → ℚ) :
    ∀ (fuel attempt : ℕ),
      (∀ i, attempt ≤ i → i ≤ attempt + fuel → attempts i = .error (errs i)) →
      retryGo o attempts jitter attempt fuel =
        ⟨.error (errs (attempt + fuel)),
         (List.range fuel).map (fun k => backoffDelay o (attempt + k) (jitter (attempt + k))),
         fuel + 1⟩ := by
  intro fuel
  induction fuel with
  | zero =>
    intro attempt h
    have := h attempt le_rfl (by omega)
    simp [retryGo, this]
  | succ fuel ih =>
    intro attempt h
    have h0 := h attempt le_rfl (by omega)
    have hrec := ih (attempt + 1) (fun i h1 h2 => h i (by omega) (by omega))
    simp only [retryGo, h0, hrec, RetryTrace.mk.injEq]
    refine ⟨congrArg (fun n => Except.error (errs n)) (by omega), ?_, trivial⟩
    rw [List.range_succ_eq_map, List.map_cons, List.map_map, Nat.add_zero]
    congr 1
    refine List.map_congr_left fun k _ => ?_
    simp only [Function.comp_apply, Nat.succ_eq_add_one]
    have e : attempt + 1 + k = attempt + (k + 1) := by omega
    rw [e]

/-- C3.  If every one of the first `maxRetries + 1` calls of the operation
fails, `retryWithBackoff` makes exactly `maxRetries + 1` calls, re-raises the
error of the last attempt, and sleeps exactly once per non-final failed
attempt — `maxRetries` sleeps in total, so no delay is computed after the
final attempt — where the delay slept after attempt `i` is
`min (baseDelayMs * 2 ^ i + jitter i) maxDelayMs`, the `i`-th jitter draw
being uniform in `[0, baseDelayMs)`. -/
theorem retry_allfail_trace (o : RetryOpts) (attempts : ℕ → Except ε α) (errs : ℕ → ε)
    (jitter : ℕ → ℚ) (h : ∀ i, i ≤ o.maxRetries → attempts i = .error (errs i)) :
    (retryWithBackoff o attempts jitter).result = .error (errs o.maxRetries) ∧
    (retryWithBackoff o attempts jitter).calls = o.maxRetries + 1 ∧
    (retryWithBackoff o attempts jitter).sleeps =
      (List.range o.maxRetries).map (fun i => backoffDelay o i (jitter i)) ∧
    (∀ i j, backoffDelay o i j = min (o.baseDelayMs * 2 ^ i + j) o.maxDelayMs) := by
  have := retryGo_allFail o attempts errs jitter o.maxRetries 0
    (fun i h1 h2 => h i (by omega))
  rw [retryWithBackoff, this]
  refine ⟨by simp, rfl, ?_, fun i j => rfl⟩
  simp

/-- Witness for C3 at a concrete configuration: `maxRetries = 2`,
`baseDelayMs = 1`, `maxDelayMs = 100`, an operation that always fails with
error `0`, zero jitter: three calls, final error `0`, sleeps `[1, 2]`. -/
theorem retry_allfail_trace_witness :
    (∀ i, i ≤ (RetryOpts.mk 2 1 100).maxRetries →
      (fun _ => (Except.error 0 : Except ℕ ℕ)) i = .error ((fun _ => 0) i)) ∧
    ((retryWithBackoff (RetryOpts.mk 2 1 100) (fun _ => (Except.error 0 : Except ℕ ℕ))
        (fun _ => 0)).result = .error ((fun _ => 0) (RetryOpts.mk 2 1 100).maxRetries) ∧
      (retryWithBackoff (RetryOpts.mk 2 1 100) (fun _ => (Except.error 0 : Except ℕ ℕ))
        (fun _ => 0)).calls = (RetryOpts.mk 2 1 100).maxRetries + 1 ∧
      (retryWithBackoff (RetryOpts.mk 2 1 100) (fun _ => (Except.error 0 : Except ℕ ℕ))
        (fun _ => 0)).sleeps =
        (List.range (RetryOpts.mk 2 1 100).maxRetries).map
          (fun i => backoffDelay (RetryOpts.mk 2 1 100) i ((fun _ => 0) i)) ∧
      (∀ i j, backoffDelay (RetryOpts.mk 2 1 100) i j =
        min ((RetryOpts.mk 2 1 100).baseDelayMs * 2 ^ i + j)
          (RetryOpts.mk 2 1 100).maxDelayMs)) :=
  ⟨fun _ _ => rfl,
   retry_allfail_trace (RetryOpts.mk 2 1 100) (fun _ => (Except.error 0 : Except ℕ ℕ))
     (fun _ => 0) (fun _ => 0) (fun _ _ => rfl)⟩

/-- C9.  For a fixed configuration with `baseDelayMs > 0` and any two jitter
draws in `[0, baseDelayMs)`, the computed backoff delay is non-decreasing from
one attempt index to the next up to the `maxDelayMs` cap, and it never exceeds
`maxDelayMs` for any attempt index and any non-negative jitter draw. -/
theorem backoff_monotone_capped (o : RetryOpts) (a : ℕ) (j₁ j₂ : ℚ)
    (hbase : 0 < o.baseDelayMs) (hj₁ : 0 ≤ j₁) (hj₁' : j₁ < o.baseDelayMs) (hj₂ : 0 ≤ j₂) :
    backoffDelay o a j₁ ≤ backoffDelay o (a + 1) j₂ ∧
    backoffDelay o a j₁ ≤ o.maxDelayMs := by
  constructor
  · refine min_le_min ?_ le_rfl
    have h1 : (1 : ℚ) ≤ 2 ^ a := one_le_pow₀ (by norm_num)
    have h2 : o.baseDelayMs ≤ o.baseDelayMs * 2 ^ a := by
      nlinarith
    have h3 : o.baseDelayMs * 2 ^ (a + 1) = o.baseDelayMs * 2 ^ a + o.baseDelayMs * 2 ^ a := by
      ring
    nlinarith
  · exact min_le_right _ _

/-- Witness for C9 at `maxRetries = 5`, `baseDelayMs = 1`, `maxDelayMs = 100`,
attempt `0`, jitter draws `0` and `0`. -/
theorem backoff_monotone_capped_witness :
    (0 < (RetryOpts.mk 5 1 100).baseDelayMs ∧ (0 : ℚ) ≤ 0 ∧
      (0 : ℚ) < (RetryOpts.mk 5 1 100).baseDelayMs ∧ (0 : ℚ) ≤ 0) ∧
    (backoffDelay (RetryOpts.mk 5 1 100) 0 0 ≤ backoffDelay (RetryOpts.mk 5 1 100) (0 + 1) 0 ∧
      backoffDelay (RetryOpts.mk 5 1 100) 0 0 ≤ (RetryOpts.mk 5 1 100).maxDelayMs) :=
  ⟨⟨by norm_num, le_rfl, by norm_num, le_rfl⟩,
   backoff_monotone_capped (RetryOpts.mk 5 1 100) 0 0 0 (by norm_num) le_rfl (by norm_num) le_rfl⟩

lemma classifyRow_eligible_inv (po : String → Option ℤ) (dedupEnabled : Bool)
    (today dueDate : ℤ) (r : Row)
    (h : classifyRow po dedupEnabled today r = .eligible dueDate) :
    parseDateSafe po (jsTrim r.dueDateStr) = some dueDate ∧ ¬ today < dueDate := by
  simp only [classifyRow] at h
  split at h
  · cases h
  · split at h
    · cases h
    · split at h
      · cases h
      · rename_i due hp
        split at h
        · cases h
        · rename_i hfut
          split at h
          · split at h
            · split at h
              · cases h
              · cases h
                exact ⟨hp, hfut⟩
            · cases h
              exact ⟨hp, hfut⟩
          · cases h
            exact ⟨hp, hfut⟩

/-- C8.  A record yields a delivery only if it is classified `Eligible`:
the payloads enqueued by the sheet scan are exactly the per-row payloads of
its eligible rows, the write-back units are exactly one `(rowIndex,
runTimestamp)` pair per eligible row, the eligible counter equals that number,
and the write-back list the drained run hands to the batcher is the same for
every assignment of per-job delivery outcomes — it is recorded before the
outcomes are known and written regardless of delivery success or permanent
failure. -/
theorem eligible_one_job_one_writeback (po : String → Option ℤ) (dedupEnabled : Bool)
    (managerEmail : String) (today : ℤ) (runTimestamp : String) (rows : List (Row × ℕ)) :
    (processRows po dedupEnabled managerEmail today runTimestamp rows).enqueued =
      rows.filterMap (fun x => rowPayload po dedupEnabled managerEmail today x.1) ∧
    (processRows po dedupEnabled managerEmail today runTimestamp rows).updates =
      (rows.filter (fun x => (classifyRow po dedupEnabled today x.1).isEligible)).map
        (fun x => (x.2, runTimestamp)) ∧
    (processRows po dedupEnabled managerEmail today runTimestamp rows).stats.tasksEligible =
      (rows.filter (fun x => (classifyRow po dedupEnabled today x.1).isEligible)).length ∧
    (∀ outcome₁ outcome₂ : ℕ → Bool,
      (runSheet po dedupEnabled managerEmail today runTimestamp outcome₁ rows).writeBack =
        (runSheet po dedupEnabled managerEmail today runTimestamp outcome₂ rows).writeBack) := by
  refine ⟨?_, ?_, ?_, fun outcome₁ outcome₂ => rfl⟩ <;>
  · induction rows with
    | nil => rfl
    | cons x rest ih =>
      obtain ⟨r, i⟩ := x
      cases hc : classifyRow po dedupEnabled today r <;>
        simp [processRows, rowPayload, Classification.isEligible, hc, ih]

/-- C10.  Every record the scan classifies `Eligible` has a non-negative
overdue-day count (strictly future due dates are rejected before payload
construction), and the built payload carries a cc to the configured manager
address exactly when the count is positive — a due-today payload has no
cc. -/
theorem eligible_overdue_nonneg_cc_iff (po : String → Option ℤ) (dedupEnabled : Bool)
    (managerEmail : String) (today dueDate : ℤ) (r : Row)
    (h : classifyRow po dedupEnabled today r = .eligible dueDate) :
    0 ≤ calculateDaysOverdue dueDate today ∧
    ((buildReminderEmail managerEmail (jsTrim r.ownerEmail)
        (calculateDaysOverdue dueDate today)).cc = some managerEmail ↔
      0 < calculateDaysOverdue dueDate today) ∧
    ((buildReminderEmail managerEmail (jsTrim r.ownerEmail)
        (calculateDaysOverdue dueDate today)).cc = none ↔
      calculateDaysOverdue dueDate today = 0) := by
  obtain ⟨-, hfut⟩ := classifyRow_eligible_inv po dedupEnabled today dueDate r h
  refine ⟨by simp only [calculateDaysOverdue]; omega, ?_, ?_⟩ <;>
  · simp only [buildReminderEmail, calculateDaysOverdue] at hfut ⊢
    split <;> rename_i hz <;> simp <;> omega

/-- Witness for C10: due date day 3, today day 5, a well-formed in-progress
row with no last-reminded marker classifies eligible; the overdue count is 2
and the payload cc's the manager. -/
theorem eligible_overdue_nonneg_cc_iff_witness :
    (classifyRow (fun s => if s = "D" then some (3 : ℤ) else none) true 5
        (Row.mk "Task" "a@b" "D" "In Progress" "") = .eligible 3) ∧
    (0 ≤ calculateDaysOverdue 3 5 ∧
      ((buildReminderEmail "mgr@x" (jsTrim (Row.mk "Task" "a@b" "D" "In Progress" "").ownerEmail)
          (calculateDaysOverdue 3 5)).cc = some "mgr@x" ↔ 0 < calculateDaysOverdue 3 5) ∧
      ((buildReminderEmail "mgr@x" (jsTrim (Row.mk "Task" "a@b" "D" "In Progress" "").ownerEmail)
          (calculateDaysOverdue 3 5)).cc = none ↔ calculateDaysOverdue 3 5 = 0)) :=
  ⟨by decide,
   eligible_overdue_nonneg_cc_iff (fun s => if s = "D" then some (3 : ℤ) else none) true
     "mgr@x" 5 3 (Row.mk "Task" "a@b" "D" "In Progress" "") (by decide)⟩

/-- Counterexample to C4 as stated: a record whose last-reminded marker parses
to the reference "today" but whose task-name field is blank is classified
`badData` by the earlier validation check, not `duplicate` — so the
classification is not independent of the other field values (it is still
never enqueued). -/
theorem dedup_today_counterexample :
    parseDateSafe (fun s => if s = "T" then some (0 : ℤ) else none)
      (jsTrim (Row.mk "" "a@b" "" "" "T").lastReminded) = some 0 ∧
    classifyRow (fun s => if s = "T" then some (0 : ℤ) else none) true 0
      (Row.mk "" "a@b" "" "" "T") = .badData ∧
    Classification.badData ≠ Classification.dedupSkip := by
  refine ⟨by decide, by decide, by decide⟩

/-- C4 as amended.  With deduplication enabled, a record whose last-reminded
marker denotes the run's "today" is never classified eligible, hence never
enqueued and never given a write-back unit; and it is classified `duplicate`
precisely when it passes the earlier checks in the scan order — nonblank
identifying fields, status not the completed sentinel, and a parseable due
date not strictly in the future.  (Records failing an earlier check are
skipped with that check's classification instead, still never enqueued.) -/
theorem dedup_today_never_enqueued (po : String → Option ℤ) (today : ℤ)
    (managerEmail runTimestamp : String) (r : Row) (i : ℕ)
    (h : parseDateSafe po (jsTrim r.lastReminded) = some today) :
    (∀ d, classifyRow po true today r ≠ .eligible d) ∧
    (processRows po true managerEmail today runTimestamp [(r, i)]).enqueued = [] ∧
    (processRows po true managerEmail today runTimestamp [(r, i)]).updates = [] ∧
    (∀ d, ¬ (jsTrim r.taskName = "" ∨ jsTrim r.ownerEmail = "") →
      jsToLower (jsTrim r.status) ≠ "completed" →
      parseDateSafe po (jsTrim r.dueDateStr) = some d → ¬ today < d →
      classifyRow po true today r = .dedupSkip) := by
  have hne : jsTrim r.lastReminded ≠ "" := by
    intro he
    rw [he] at h
    rw [parseDateSafe, if_pos (show jsTrim "" = "" from by decide)] at h
    cases h
  have hnotel : ∀ d, classifyRow po true today r ≠ .eligible d := by
    intro d hcl
    simp only [classifyRow] at hcl
    split at hcl
    · cases hcl
    · split at hcl
      · cases hcl
      · split at hcl
        · cases hcl
        · rename_i due hp
          split at hcl
          · cases hcl
          · split at hcl
            · split at hcl
              · split at hcl
                · cases hcl
                · rename_i lastDate hq hneq
                  rw [h] at hq
                  cases hq
                  exact hneq rfl
              · rename_i hq
                rw [h] at hq
                cases hq
            · rename_i hguard
              exact hguard ⟨trivial, hne⟩
  refine ⟨hnotel, ?_, ?_, ?_⟩
  · cases hc : classifyRow po true today r with
    | eligible d => exact absurd hc (hnotel d)
    | badData => simp [processRows, hc]
    | completedTask => simp [processRows, hc]
    | futureTask => simp [processRows, hc]
    | dedupSkip => simp [processRows, hc]
  · cases hc : classifyRow po true today r with
    | eligible d => exact absurd hc (hnotel d)
    | badData => simp [processRows, hc]
    | completedTask => simp [processRows, hc]
    | futureTask => simp [processRows, hc]
    | dedupSkip => simp [processRows, hc]
  · intro d h1 h2 h3 h4
    simp only [classifyRow, h3]
    rw [if_neg h1, if_neg h2, if_neg h4]
    simp [hne, h]

/-- Witness for C4 as amended: today is day 5, the due date parses to day 3,
the last-reminded marker parses to day 5 (= today); the record classifies
duplicate, enqueues nothing and records no write-back unit. -/
theorem dedup_today_never_enqueued_witness :
    (parseDateSafe (fun s => if s = "D" then some (3 : ℤ) else if s = "T" then some 5 else none)
        (jsTrim (Row.mk "Task" "a@b" "D" "In Progress" "T").lastReminded) = some 5) ∧
    ((∀ d, classifyRow (fun s => if s = "D" then some (3 : ℤ) else if s = "T" then some 5
          else none) true 5 (Row.mk "Task" "a@b" "D" "In Progress" "T") ≠ .eligible d) ∧
      (processRows (fun s => if s = "D" then some (3 : ℤ) else if s = "T" then some 5 else none)
          true "mgr@x" 5 "TS" [((Row.mk "Task" "a@b" "D" "In Progress" "T"), 7)]).enqueued = [] ∧
      (processRows (fun s => if s = "D" then some (3 : ℤ) else if s = "T" then some 5 else none)
          true "mgr@x" 5 "TS" [((Row.mk "Task" "a@b" "D" "In Progress" "T"), 7)]).updates = [] ∧
      (∀ d, ¬ (jsTrim (Row.mk "Task" "a@b" "D" "In Progress" "T").taskName = "" ∨
          jsTrim (Row.mk "Task" "a@b" "D" "In Progress" "T").ownerEmail = "") →
        jsToLower (jsTrim (Row.mk "Task" "a@b" "D" "In Progress" "T").status) ≠ "completed" →
        parseDateSafe (fun s => if s = "D" then some (3 : ℤ) else if s = "T" then some 5
          else none) (jsTrim (Row.mk "Task" "a@b" "D" "In Progress" "T").dueDateStr) = some d →
        ¬ (5 : ℤ) < d →
        classifyRow (fun s => if s = "D" then some (3 : ℤ) else if s = "T" then some 5 else none)
          true 5 (Row.mk "Task" "a@b" "D" "In Progress" "T") = .dedupSkip)) :=
  ⟨by decide,
   dedup_today_never_enqueued (fun s => if s = "D" then some (3 : ℤ) else if s = "T" then some 5
     else none) 5 "mgr@x" "TS" (Row.mk "Task" "a@b" "D" "In Progress" "T") 7 (by decide)⟩

/-- Counterexample to C6 as stated: at total row count 12000 and page size
5000 the scanner does not yield pages (5000, 5000, 2000) and does not scan
12000 rows — row 1 is the reserved header, so rows 2..12000 are only 11999
data rows. -/
theorem scanner_12000_counterexample :
    fetchPageSizes 5000 12000 ≠ [5000, 5000, 2000] ∧
    (fetchPageSizes 5000 12000).sum ≠ 12000 := by
  decide

/-- C6 as amended.  For a source group whose total row count is 12000 and page
size 5000, the scanner — first page starting at absolute position 2, position
1 being the reserved header — yields exactly 3 pages, of sizes 5000, 5000 and
1999 (ranges 2–5001, 5002–10001, 10002–12000), for a total scanned count of
11999, and stops once the absolute position exceeds the total count (no
requested range reaches past row 12000). -/
theorem scanner_12000_pages :
    fetchPageSizes 5000 12000 = [5000, 5000, 1999] ∧
    (fetchPageSizes 5000 12000).sum = 11999 ∧
    fetchPageRanges 5000 12000 = [(2, 5001), (5002, 10001), (10002, 12000)] ∧
    (∀ p ∈ fetchPageRanges 5000 12000, 2 ≤ p.1 ∧ p.2 ≤ 12000) := by
  decide

lemma batchUpdateGo_take (chunkOk : ℕ → Bool) :
    ∀ (cs : List (List (ℕ × String))) (base j : ℕ),
      (∀ k, k < j → chunkOk (base + k) = true) → chunkOk (base + j) = false →
      j < cs.length →
      batchUpdateGo chunkOk base cs = (cs.take j, false) := by
  intro cs
  induction cs with
  | nil =>
    intro base j _ _ hj
    simp at hj
  | cons c rest ih =>
    intro base j hok hfail hj
    cases j with
    | zero =>
      have h0 : chunkOk base = false := by simpa using hfail
      simp [batchUpdateGo, h0]
    | succ j' =>
      have h0 : chunkOk base = true := by simpa using hok 0 (Nat.succ_pos j')
      have hrec := ih (base + 1) j'
        (fun k hk => by
          have := hok (k + 1) (by omega)
          simpa [Nat.add_assoc, Nat.add_comm 1 k] using this)
        (by
          have : base + 1 + j' = base + (j' + 1) := by omega
          rw [this]
          exact hfail)
        (by simpa using hj)
      simp [batchUpdateGo, h0, hrec]

/-- Counterexample to C7 as stated: four updates in chunks of two, with the
first chunk's write failing permanently — the second chunk of the same list
is not written (nothing is), contradicting "subsequent chunks of the same
list are still written". -/
theorem chunk_failure_counterexample :
    chunksOf 2 [(2, "T"), (3, "T"), (4, "T"), (5, "T")] =
      [[(2, "T"), (3, "T")], [(4, "T"), (5, "T")]] ∧
    (batchUpdateLastReminded (fun i => i != 0) 2
      [(2, "T"), (3, "T"), (4, "T"), (5, "T")]).1 = [] ∧
    [(4, "T"), (5, "T")] ∉ (batchUpdateLastReminded (fun i => i != 0) 2
      [(2, "T"), (3, "T"), (4, "T"), (5, "T")]).1 := by
  decide

/-- C7 as amended.  A chunk whose batched write fails is retried via the retry
policy; if chunk `j` is the first to exhaust its retries, the chunks before it
remain written but chunk `j` and every later chunk of the same list are
abandoned (the loop throws), and the failure surfaces as an abnormal return
caught and logged at the per-sheet level: the write-back phase runs each
sheet's list independently, so subsequent sheets' lists are still written and
the partial write is a reported, non-fatal outcome of the run. -/
theorem chunk_failure_scoped (chunkOk : ℕ → Bool) (writeBatch : ℕ)
    (updates : List (ℕ × String)) (j : ℕ)
    (hok : ∀ k, k < j → chunkOk k = true) (hfail : chunkOk j = false)
    (hj : j < (chunksOf writeBatch updates).length) :
    (batchUpdateLastReminded chunkOk writeBatch updates).1 =
      (chunksOf writeBatch updates).take j ∧
    (batchUpdateLastReminded chunkOk writeBatch updates).2 = false ∧
    (∀ (sheetOk : ℕ → ℕ → Bool) (sheetUpdates : List (List (ℕ × String))),
      writeBackPhase sheetOk writeBatch sheetUpdates =
        sheetUpdates.enum.map
          (fun p => (batchUpdateLastReminded (sheetOk p.1) writeBatch p.2).1)) := by
  have := batchUpdateGo_take chunkOk (chunksOf writeBatch updates) 0 j
    (fun k hk => by simpa using hok k hk) (by simpa using hfail) hj
  exact ⟨by simp [batchUpdateLastReminded, this], by simp [batchUpdateLastReminded, this],
    fun sheetOk sheetUpdates => rfl⟩

/-- Witness for C7 as amended: four updates in chunks of two, chunk 1 failing:
chunk 0 is written, chunk 1 abandoned, the call returns abnormally. -/
theorem chunk_failure_scoped_witness :
    ((∀ k, k < 1 → ((fun i => i != 1) k : Bool) = true) ∧ ((fun i => i != 1) 1 : Bool) = false ∧
      1 < (chunksOf 2 [(2, "T"), (3, "T"), (4, "T"), (5, "T")]).length) ∧
    ((batchUpdateLastReminded (fun i => i != 1) 2 [(2, "T"), (3, "T"), (4, "T"), (5, "T")]).1 =
        (chunksOf 2 [(2, "T"), (3, "T"), (4, "T"), (5, "T")]).take 1 ∧
      (batchUpdateLastReminded (fun i => i != 1) 2
        [(2, "T"), (3, "T"), (4, "T"), (5, "T")]).2 = false ∧
      (∀ (sheetOk : ℕ → ℕ → Bool) (sheetUpdates : List (List (ℕ × String))),
        writeBackPhase sheetOk 2 sheetUpdates =
          sheetUpdates.enum.map
            (fun p => (batchUpdateLastReminded (sheetOk p.1) 2 p.2).1))) :=
  ⟨⟨by decide, by decide, by decide⟩,
   chunk_failure_scoped (fun i => i != 1) 2 [(2, "T"), (3, "T"), (4, "T"), (5, "T")] 1
     (by decide) (by decide) (by decide)⟩

/-- Counterexample to C5 as stated: a `runOnce()` call that finds a run in
progress returns `null` — not the sentinel `{skipped: true,
reason: "overlap"}` the claim promises. -/
theorem overlap_returns_null_counterexample :
    runOnce true (Except.ok (RunResult.summary 0 0)) = (none, 0) ∧
    (runOnce true (Except.ok (RunResult.summary 0 0))).1 ≠
      some (RunResult.skippedRun "overlap") := by
  decide

/-- C5 as amended.  If `runOnce()` is called while a first run is still
executing, the second call returns `null` immediately, without invoking the
scanner (zero `processReminders` invocations, hence no page fetch on its
behalf); no `{skipped, reason}` sentinel of any kind is returned on the
overlap path. -/
theorem overlap_skip_no_scan (body : Except String RunResult) :
    runOnce true body = (none, 0) ∧
    (∀ reason, (runOnce true body).1 ≠ some (RunResult.skippedRun reason)) :=
  ⟨rfl, fun reason h => by simp [runOnce] at h⟩

end ReminderBot
